import Mathlib

/-!
Verification of the Home-Network-Monitor core (src/backend/server.py).

The Python source is shallowly embedded as follows:

* `DeviceStore._devices` (a Python `dict` keyed by IP string, values are
  per-device `dict`s with fields ip/mac/hostname/status/last_seen) is a
  key-ordered association list `Store`; `dictInsert` models dict item
  assignment (replace in place, preserving insertion order, append if new).
* Wall-clock time (`time.strftime` inside `update_device`) is an abstract
  non-negative counter `now : Nat` passed explicitly; the only property the
  claims need is that successive readings are non-decreasing.
* `Optional[str]` is `Option String`; Python's `x or y` on an optional
  string (falsy for `None` and `""`) is `pyOr`.
* Subprocess / socket interactions (`ping`, `arp`, reverse DNS, the UDP
  socket trick, `gethostbyname`) are external capabilities, modelled as an
  environment record `NetEnv` holding their observable outcome for each
  address; a raised exception or failed command is `none` / `Except.error`.
* The ARP-output parsing (`get_mac_address`, `_is_mac`) is modelled
  concretely, including Python's `int(s, 16)` acceptance of whitespace,
  a sign, an optional `0x` prefix and digit-group underscores, `str.split`
  with no arguments (runs of whitespace) and substring membership `in`.
* `str.splitlines` is modelled for newline-separated text (`\n` only; the
  exotic unicode line breaks Python also splits on do not occur in ARP
  output).
-/

/-- One device record: the per-device dict built in
`DeviceStore.update_device` with keys ip/mac/hostname/status/last_seen.
`last_seen` is the abstract clock value. -/
structure DeviceRecord where
  ip : String
  mac : String
  hostname : String
  status : String
  last_seen : Nat
deriving DecidableEq, Repr

/-- The registry mapping (`DeviceStore._devices`): an insertion-ordered
association list from IP string to record. -/
abbrev Store := List (String × DeviceRecord)

/-- Python `x or y` for `x : Optional[str]`: `y` when `x` is `None` or the
empty string (both falsy), else the value of `x`. -/
def pyOr (x : Option String) (y : String) : String :=
  match x with
  | none => y
  | some s => if s = "" then y else s

/-- Python dict item assignment `d[k] = v`: replace the value in place if
the key is present (keeping its position), else append the new pair. -/
def dictInsert {β : Type} : List (String × β) → String → β → List (String × β)
  | [], k, v => [(k, v)]
  | (k', v') :: rest, k, v =>
      if k = k' then (k, v) :: rest else (k', v') :: dictInsert rest k v

/-- The record built by `update_device`: `existing = self._devices.get(ip, {})`
and each field of the fresh dict, with `"unknown"` defaults for a missing
record, Python-`or` retention for mac/hostname, and `last_seen` advanced
only when online. -/
def mergeRecord (existing : Option DeviceRecord) (now : Nat) (ip : String)
    (mac hostname : Option String) (online : Bool) : DeviceRecord :=
  { ip := ip
  , mac := pyOr mac (match existing with | some r => r.mac | none => "unknown")
  , hostname := pyOr hostname (match existing with | some r => r.hostname | none => "unknown")
  , status := if online then "online" else "offline"
  , last_seen := if online then now else (match existing with | some r => r.last_seen | none => now) }

/-- `DeviceStore.update_device(ip, mac, hostname, online)`; `now` is the
clock reading taken at the top of the call. The lock makes the whole body
atomic; sequential application of `update_device` below therefore covers
every interleaving of concurrent callers. -/
def update_device (store : Store) (now : Nat) (ip : String)
    (mac hostname : Option String) (online : Bool) : Store :=
  dictInsert store ip (mergeRecord (store.lookup ip) now ip mac hostname online)

/-- `DeviceStore.snapshot`: `dict(self._devices)` — a copy of the key/value
pairs. As a pure value the copy is the value itself; the aliasing of the
inner record dicts that the Python shallow copy shares is modelled
explicitly by the `mem`-prefixed heap model below. -/
def snapshot (store : Store) : Store := store

/-- ASCII whitespace, as recognised by Python `str.strip()` / `str.split()`
(the ARP text handled here is ASCII). -/
def isPyWs (c : Char) : Bool :=
  c = ' ' || c = '\t' || c = '\n' || c = '\r' || c = Char.ofNat 11 || c = Char.ofNat 12

/-- Strip leading and trailing whitespace, as `int(s, 16)` does before
parsing. -/
def stripWs (cs : List Char) : List Char :=
  ((cs.dropWhile isPyWs).reverse.dropWhile isPyWs).reverse

def pyIsHexDigit (c : Char) : Bool :=
  c.isDigit || ('a' ≤ c && c ≤ 'f') || ('A' ≤ c && c ≤ 'F')

def hexVal (c : Char) : Nat :=
  if c.isDigit then c.toNat - '0'.toNat
  else if 'a' ≤ c then c.toNat - 'a'.toNat + 10
  else c.toNat - 'A'.toNat + 10

/-- Remaining hex digits after the first one: Python permits single
underscores, but only between digits. -/
def parseHexTail (acc : Nat) : List Char → Option Nat
  | [] => some acc
  | '_' :: c :: rest =>
      if pyIsHexDigit c then parseHexTail (acc * 16 + hexVal c) rest else none
  | '_' :: [] => none
  | c :: rest =>
      if pyIsHexDigit c then parseHexTail (acc * 16 + hexVal c) rest else none

/-- A nonempty run of hex digits (with legal underscores); `none` on any
malformed input, modelling `ValueError`. -/
def parseHexDigits : List Char → Option Nat
  | [] => none
  | c :: rest => if pyIsHexDigit c then parseHexTail (hexVal c) rest else none

/-- After an optional sign: an optional `0x`/`0X` prefix (which may be
followed by one underscore), then hex digits. -/
def parseAfterSign (cs : List Char) : Option Nat :=
  match cs with
  | '0' :: x :: rest =>
      if x = 'x' || x = 'X' then
        match rest with
        | '_' :: rest2 => parseHexDigits rest2
        | _ => parseHexDigits rest
      else parseHexDigits cs
  | _ => parseHexDigits cs

/-- Python `int(s, 16)`: strip whitespace, optional single sign, optional
base prefix, hex digits; `none` models a raised `ValueError`. -/
def pyIntHex (s : String) : Option Int :=
  match stripWs s.data with
  | '+' :: rest => (parseAfterSign rest).map Int.ofNat
  | '-' :: rest => (parseAfterSign rest).map (fun n => -(Int.ofNat n))
  | cs => (parseAfterSign cs).map Int.ofNat

/-- Split a character list at every character satisfying `p`, keeping empty
groups: the semantics of Python `str.split(sep)` for a one-character
separator (with `p` matching exactly that character). -/
def splitP (p : Char → Bool) : List Char → List (List Char)
  | [] => [[]]
  | c :: rest =>
      if p c then [] :: splitP p rest
      else
        match splitP p rest with
        | [] => [[c]]
        | g :: gs => (c :: g) :: gs

/-- Python `s.replace("-", ":")` for the one-character pattern used by the
source: substitute character-wise. -/
def dashToColon (s : String) : String :=
  String.mk (s.data.map fun c => if c = '-' then ':' else c)

/-- Python `str.lower()` on ASCII text (MAC tokens are ASCII). -/
def pyLower (s : String) : String :=
  String.mk (s.data.map fun c =>
    if 'A' ≤ c && c ≤ 'Z' then Char.ofNat (c.toNat + 32) else c)

/-- `_is_mac(value)`: replace `-` by `:`, split on `:`, demand exactly six
chunks, each parsing under `int(_, 16)` to a value in `0..255`. -/
def _is_mac (value : String) : Bool :=
  let chunks := (splitP (fun c => c = ':') (dashToColon value).data).map String.mk
  chunks.length == 6 &&
    chunks.all fun part =>
      match pyIntHex part with
      | some v => decide (0 ≤ v) && decide (v ≤ 255)
      | none => false

/-- `needle` occurs as a contiguous run inside `hay`. -/
def listContains (needle : List Char) : List Char → Bool
  | [] => needle.isEmpty
  | c :: rest => needle.isPrefixOf (c :: rest) || listContains needle rest

/-- Python substring membership `needle in hay`. -/
def pyIn (needle hay : String) : Bool :=
  listContains needle.data hay.data

/-- Python `str.splitlines()` restricted to `\n` separators (ARP output is
plain ASCII lines): empty text has no lines, and a trailing newline does
not produce a final empty line. -/
def pySplitlines (s : String) : List String :=
  if s.data = [] then []
  else
    let gs := (splitP (fun c => c = '\n') s.data).map String.mk
    if s.data.getLast? = some '\n' then gs.dropLast else gs

/-- Python `str.split()` with no arguments: split on runs of whitespace,
discarding empty pieces. -/
def pySplitWs (s : String) : List String :=
  ((splitP isPyWs s.data).map String.mk).filter (fun t => t ≠ "")

/-- The line loop of `get_mac_address`: on each line containing the queried
address textually, return the first whitespace-separated token accepted by
`_is_mac`, canonicalised by `token.replace("-", ":").lower()`; a matching
line without such a token falls through to later lines. -/
def scanLines (ip : String) : List String → Option String
  | [] => none
  | line :: rest =>
      if pyIn ip line then
        match (pySplitWs line).find? _is_mac with
        | some tok => some (pyLower (dashToColon tok))
        | none => scanLines ip rest
      else scanLines ip rest

/-- `get_mac_address(ip)`. The `arp` subprocess is external: `output` is
`some text` for captured stdout and `none` when the command failed
(`CalledProcessError` / `FileNotFoundError`), in which case the function
returns `None`. -/
def get_mac_address (ip : String) (output : Option String) : Option String :=
  match output with
  | none => none
  | some out => scanLines ip (pySplitlines out)

/-- One decimal octet as accepted by Python `ipaddress`: one to three
digits, no leading zero (except `"0"` itself), value at most 255. -/
def parseOctet (s : String) : Option Nat :=
  match s.data with
  | [] => none
  | cs =>
      if cs.all Char.isDigit && cs.length ≤ 3
          && (cs.length == 1 || cs.head? != some '0') then
        let v := cs.foldl (fun a c => a * 10 + (c.toNat - '0'.toNat)) 0
        if v ≤ 255 then some v else none
      else none

/-- Parse a dotted-quad IPv4 address to its 32-bit numeric value; `none`
models the `ValueError` raised by `ipaddress` on malformed input. -/
def parseIPv4 (s : String) : Option Nat :=
  match (splitP (fun c => c = '.') s.data).map String.mk with
  | [a, b, c, d] =>
      match parseOctet a, parseOctet b, parseOctet c, parseOctet d with
      | some a', some b', some c', some d' =>
          some (a' * 16777216 + b' * 65536 + c' * 256 + d')
      | _, _, _, _ => none
  | _ => none

/-- Render a 32-bit value back to dotted-quad form (`str(host)`). -/
def ipToString (n : Nat) : String :=
  toString (n / 16777216 % 256) ++ "." ++ toString (n / 65536 % 256) ++ "."
    ++ toString (n / 256 % 256) ++ "." ++ toString (n % 256)

/-- `IPv4Network.hosts()`: all usable addresses of the network starting at
`net` — everything strictly between network and broadcast address for
prefixes up to /30, both addresses of a /31, the lone address of a /32. -/
def hostsRange (net : Nat) (cidr : Nat) : List Nat :=
  if cidr = 32 then [net]
  else if cidr = 31 then [net, net + 1]
  else (List.range (2 ^ (32 - cidr) - 2)).map (fun i => net + 1 + i)

/-- `ip_network(f"{ip}/{cidr}", strict=False).hosts()` as strings: mask the
base address down to its network (`strict=False`), then enumerate usable
hosts; `none` models `ValueError` (bad address or prefix). -/
def ipNetworkHosts (ip : String) (cidr : Nat) : Option (List String) :=
  match parseIPv4 ip with
  | none => none
  | some base =>
      if cidr ≤ 32 then
        let block := 2 ^ (32 - cidr)
        let net := base / block * block
        some ((hostsRange net cidr).map ipToString)
      else none

def SCAN_INTERVAL_SECONDS : Nat := 30

def PING_TIMEOUT_MS : Nat := 800

def DEFAULT_NETMASK : Nat := 24

/-- Observable outcomes of the external OS capabilities for one scan
cycle. `sockIp` is the result of the UDP connectivity-probe trick
(`none` = the socket code raised); `hostIp` is
`socket.gethostbyname(socket.gethostname())` (`none` = it raised);
`ping` is the boolean outcome of `ping_host`; `arpOut` is the captured
stdout of the `arp` command (`none` = the command failed); `dns` is the
reverse-resolved name (`none` = `resolve_hostname` returned `None`). -/
structure NetEnv where
  sockIp : Option String
  hostIp : Option String
  ping : String → Bool
  arpOut : String → Option String
  dns : String → Option String

/-- `get_local_ip()`: try the socket trick; on any exception fall back to
host-name resolution. The fallback call sits inside the `except` handler
with no further protection, so its own failure propagates as an
exception. -/
def get_local_ip (env : NetEnv) : Except String String :=
  match env.sockIp with
  | some ip => Except.ok ip
  | none =>
      match env.hostIp with
      | some ip => Except.ok ip
      | none => Except.error "socket.gaierror"

/-- `build_subnet(cidr)`: `get_local_ip()` is called outside the `try`
block, so its exception propagates; only `ValueError` from `ip_network`
is caught and turned into an empty list. -/
def build_subnet (env : NetEnv) (cidr : Nat) : Except String (List String) :=
  match get_local_ip env with
  | Except.error e => Except.error e
  | Except.ok ip =>
      match ipNetworkHosts ip cidr with
      | some hosts => Except.ok hosts
      | none => Except.ok []

/-- The body of `scan_network`'s loop over an address list: ping, then
conditionally ARP / reverse-DNS (both skipped — `None` passed — for an
unreachable host), then exactly one `update_device` per address. -/
def scanIps (env : NetEnv) (now : Nat) (ips : List String) (store : Store) : Store :=
  ips.foldl
    (fun st ip =>
      let alive := env.ping ip
      update_device st now ip
        (if alive then get_mac_address ip (env.arpOut ip) else none)
        (if alive then env.dns ip else none)
        alive)
    store

/-- `scan_network()`: enumerate the subnet via `build_subnet` (whose
exception propagates uncaught) and fold the per-address loop over the
store. -/
def scan_network (env : NetEnv) (now : Nat) (store : Store) : Except String Store :=
  match build_subnet env DEFAULT_NETMASK with
  | Except.error e => Except.error e
  | Except.ok ips => Except.ok (scanIps env now ips store)

/-- `scan_loop(stop_event)`: run `scan_network` once per iteration until
the stop event is observed — modelled by `fuel` iterations. `clock i` is
the time read during cycle `i`. There is no exception handler in the loop,
so an error from `scan_network` terminates it. -/
def scan_loop (env : NetEnv) (clock : Nat → Nat) :
    Nat → Nat → Store → Except String Store
  | _, 0, store => Except.ok store
  | i, fuel + 1, store =>
      match scan_network env (clock i) store with
      | Except.error e => Except.error e
      | Except.ok st => scan_loop env clock (i + 1) fuel st

/-- The arguments of one `update_device` call, together with the clock
reading `now` the call observes. The store's lock makes each call atomic,
so any set of concurrent callers is equivalent to applying their calls in
some sequential order: concurrency claims below quantify over that order
as a list. -/
structure UpdateCall where
  now : Nat
  ip : String
  mac : Option String
  hostname : Option String
  online : Bool
deriving DecidableEq, Repr

/-- Apply a serialisation of `update_device` calls to the store. -/
def applyCalls (store : Store) (calls : List UpdateCall) : Store :=
  calls.foldl (fun st c => update_device st c.now c.ip c.mac c.hostname c.online) store

/-- The argument tuple `scan_network` passes to `update_device` for one
address (all calls of one cycle share the same clock reading). -/
structure ProbeCall where
  ip : String
  mac : Option String
  hostname : Option String
  online : Bool
deriving DecidableEq, Repr

/-- The sequence of `update_device` calls one cycle of `scan_network`
issues over an address list: one call per address, in order, with the
link-layer and name lookups performed only when the ping reported the
address reachable. -/
def scanCalls (env : NetEnv) (ips : List String) : List ProbeCall :=
  ips.map fun ip =>
    let alive := env.ping ip
    { ip := ip
    , mac := if alive then get_mac_address ip (env.arpOut ip) else none
    , hostname := if alive then env.dns ip else none
    , online := alive }

/-- The record one scan cycle writes for address `ip` given the record the
store previously held there. -/
def cycleRecord (env : NetEnv) (now : Nat) (ip : String)
    (existing : Option DeviceRecord) : DeviceRecord :=
  let alive := env.ping ip
  mergeRecord existing now ip
    (if alive then get_mac_address ip (env.arpOut ip) else none)
    (if alive then env.dns ip else none) alive

/-- Heap-level model of the store, making the Python reference semantics
explicit: `heap` is the set of record dicts ever allocated (a dict is
identified by its allocation index) and `tbl` is `self._devices`, mapping
an address to the index of its current record dict. -/
structure MemState where
  heap : List DeviceRecord
  tbl : List (String × Nat)
deriving DecidableEq, Repr

def memInit : MemState := { heap := [], tbl := [] }

/-- `update_device` at heap level: the call reads the existing record (if
any), allocates a brand-new record dict, and rebinds the address to the
new dict. No previously allocated dict is ever written in place. -/
def memUpdate (s : MemState) (c : UpdateCall) : MemState :=
  let existing := (s.tbl.lookup c.ip).bind (fun i => s.heap[i]?)
  { heap := s.heap ++ [mergeRecord existing c.now c.ip c.mac c.hostname c.online]
  , tbl := dictInsert s.tbl c.ip s.heap.length }

def memApply (s : MemState) (calls : List UpdateCall) : MemState :=
  calls.foldl memUpdate s

/-- `snapshot` at heap level: `dict(self._devices)` copies the key/index
pairs (a shallow copy — the record dicts themselves are shared with the
store). -/
def memSnapshot (s : MemState) : List (String × Nat) := s.tbl

/-- Dereference a snapshot against the current heap: what a reader of the
returned collection observes for `ip`. -/
def memRead (heap : List DeviceRecord) (snap : List (String × Nat)) (ip : String) :
    Option DeviceRecord :=
  (snap.lookup ip).bind (fun i => heap[i]?)

/-- Well-formedness: every reference in the table points into the heap. -/
def memWF (s : MemState) : Prop :=
  ∀ p ∈ s.tbl, p.2 < s.heap.length

example : parseIPv4 "192.168.1.10" = some 3232235786 := by decide
example : parseIPv4 "bogus" = none := by decide
example : parseIPv4 "192.168.01.1" = none := by decide
example : ipToString 3232235786 = "192.168.1.10" := by decide
example : pyIntHex "aa" = some 170 := by decide
example : pyIntHex "0xAB" = some 171 := by decide
example : pyIntHex " ff " = some 255 := by decide
example : pyIntHex "-ff" = some (-255) := by decide
example : pyIntHex "f_f" = some 255 := by decide
example : pyIntHex "_ff" = none := by decide
example : pyIntHex "ff_" = none := by decide
example : pyIntHex "" = none := by decide
example : pyIntHex "gg" = none := by decide
example : _is_mac "aa-bb-cc-dd-ee-ff" = true := by decide
example : _is_mac "aa:bb:cc:dd:ee:ff" = true := by decide
example : _is_mac "aa:bb:cc:dd:ee" = false := by decide
example : _is_mac "unknown" = false := by decide
example : _is_mac "192.168.1.5" = false := by decide
example : _is_mac "ether" = false := by decide
example :
    get_mac_address "192.168.1.5" (some "192.168.1.5 ether aa-bb-cc-dd-ee-ff")
      = some "aa:bb:cc:dd:ee:ff" := by decide

theorem lookup_dictInsert {β : Type} (l : List (String × β)) (k : String) (v : β) :
    (dictInsert l k v).lookup k = some v := by
  induction l with
  | nil => simp [dictInsert, List.lookup]
  | cons p rest ih =>
    obtain ⟨k', v'⟩ := p
    by_cases h : k = k'
    · simp [dictInsert, h, List.lookup]
    · simp only [dictInsert, if_neg h, List.lookup]
      cases hb : k == k' with
      | true => exact absurd (by simpa using hb) h
      | false => exact ih

theorem lookup_dictInsert_ne {β : Type} (l : List (String × β)) (k k' : String) (v : β)
    (h : k ≠ k') : (dictInsert l k' v).lookup k = l.lookup k := by
  induction l with
  | nil =>
    simp only [dictInsert, List.lookup]
    cases hb : k == k' with
    | true => exact absurd (by simpa using hb) h
    | false => rfl
  | cons p rest ih =>
    obtain ⟨k₀, v₀⟩ := p
    by_cases hk : k' = k₀
    · subst hk
      simp only [dictInsert, if_pos rfl, List.lookup]
      cases hb : k == k' with
      | true => exact absurd (by simpa using hb) h
      | false => rfl
    · simp only [dictInsert, if_neg hk, List.lookup]
      cases hb : k == k₀ with
      | true => rfl
      | false => exact ih

theorem mem_dictInsert {β : Type} (l : List (String × β)) (k : String) (v : β)
    (p : String × β) (hp : p ∈ dictInsert l k v) : p = (k, v) ∨ p ∈ l := by
  induction l with
  | nil => simpa [dictInsert] using hp
  | cons q rest ih =>
    obtain ⟨k', v'⟩ := q
    by_cases h : k = k'
    · simp only [dictInsert, if_pos h] at hp
      rcases List.mem_cons.mp hp with h1 | h1
      · exact Or.inl h1
      · exact Or.inr (List.mem_cons_of_mem _ h1)
    · simp only [dictInsert, if_neg h] at hp
      rcases List.mem_cons.mp hp with h1 | h1
      · exact Or.inr (by simp [h1])
      · rcases ih h1 with h2 | h2
        · exact Or.inl h2
        · exact Or.inr (List.mem_cons_of_mem _ h2)

theorem lookup_mem {β : Type} (l : List (String × β)) (k : String) (v : β)
    (h : l.lookup k = some v) : (k, v) ∈ l := by
  induction l with
  | nil => simp [List.lookup] at h
  | cons p rest ih =>
    obtain ⟨k', v'⟩ := p
    simp only [List.lookup] at h
    cases hb : k == k' with
    | true =>
      rw [hb] at h
      have hk : k = k' := by simpa using hb
      cases h
      simp [hk]
    | false =>
      rw [hb] at h
      exact List.mem_cons_of_mem _ (ih h)

theorem lookup_update_device_self (store : Store) (now : Nat) (ip : String)
    (mac hostname : Option String) (online : Bool) :
    (update_device store now ip mac hostname online).lookup ip
      = some (mergeRecord (store.lookup ip) now ip mac hostname online) :=
  lookup_dictInsert store ip _

theorem lookup_update_device_ne (store : Store) (now : Nat) (ip ip' : String)
    (mac hostname : Option String) (online : Bool) (h : ip' ≠ ip) :
    (update_device store now ip mac hostname online).lookup ip' = store.lookup ip' :=
  lookup_dictInsert_ne store ip' ip _ h

theorem pyOr_idem (m : Option String) (x : String) : pyOr m (pyOr m x) = pyOr m x := by
  cases m with
  | none => rfl
  | some s =>
    by_cases h : s = "" <;> simp [pyOr, h]

theorem cycleRecord_idem (env : NetEnv) (now : Nat) (ip : String)
    (existing : Option DeviceRecord) :
    cycleRecord env now ip (some (cycleRecord env now ip existing))
      = cycleRecord env now ip existing := by
  cases halive : env.ping ip <;>
    simp [cycleRecord, mergeRecord, halive, pyOr_idem]

theorem scanIps_lookup (env : NetEnv) (now : Nat) (ips : List String)
    (store : Store) (ip : String) :
    (scanIps env now ips store).lookup ip
      = if ip ∈ ips then some (cycleRecord env now ip (store.lookup ip))
        else store.lookup ip := by
  induction ips generalizing store with
  | nil => simp [scanIps]
  | cons a rest ih =>
    have step : scanIps env now (a :: rest) store
        = scanIps env now rest
            (dictInsert store a (cycleRecord env now a (store.lookup a))) := rfl
    rw [step, ih]
    by_cases ha : ip = a
    · subst ha
      rw [lookup_dictInsert]
      by_cases hr : ip ∈ rest
      · simp [hr, cycleRecord_idem]
      · simp [hr]
    · rw [lookup_dictInsert_ne _ _ _ _ ha]
      by_cases hr : ip ∈ rest
      · simp [hr]
      · simp [hr, ha]

theorem applyCalls_lookup_not_mem (store : Store) (calls : List UpdateCall)
    (ip : String) (h : ip ∉ calls.map UpdateCall.ip) :
    (applyCalls store calls).lookup ip = store.lookup ip := by
  induction calls generalizing store with
  | nil => rfl
  | cons c rest ih =>
    simp only [List.map_cons, List.mem_cons, not_or] at h
    have step : applyCalls store (c :: rest)
        = applyCalls (update_device store c.now c.ip c.mac c.hostname c.online) rest := rfl
    rw [step, ih _ h.2, lookup_update_device_ne _ _ _ _ _ _ _ h.1]

theorem memWF_init : memWF memInit := by
  intro p hp
  simp [memInit] at hp

theorem memWF_update (s : MemState) (c : UpdateCall) (h : memWF s) :
    memWF (memUpdate s c) := by
  intro p hp
  simp only [memUpdate, List.length_append, List.length_cons, List.length_nil] at hp ⊢
  rcases mem_dictInsert _ _ _ _ hp with h1 | h1
  · subst h1
    omega
  · have := h p h1
    omega

theorem memWF_apply (s : MemState) (calls : List UpdateCall) (h : memWF s) :
    memWF (memApply s calls) := by
  induction calls generalizing s with
  | nil => exact h
  | cons c rest ih => exact ih _ (memWF_update s c h)

theorem memApply_heap_extends (s : MemState) (calls : List UpdateCall) :
    ∃ ext, (memApply s calls).heap = s.heap ++ ext := by
  induction calls generalizing s with
  | nil => exact ⟨[], by simp [memApply]⟩
  | cons c rest ih =>
    obtain ⟨ext, hext⟩ := ih (memUpdate s c)
    refine ⟨(memUpdate s c).heap.drop s.heap.length ++ ext, ?_⟩
    have step : memApply s (c :: rest) = memApply (memUpdate s c) rest := rfl
    rw [step, hext]
    simp [memUpdate]

theorem scanLines_sound (ip : String) (lines : List String) (m : String)
    (h : scanLines ip lines = some m) :
    ∃ line, line ∈ lines ∧ pyIn ip line = true
      ∧ ∃ tok, tok ∈ pySplitWs line ∧ _is_mac tok = true
        ∧ m = pyLower (dashToColon tok) := by
  induction lines with
  | nil => simp [scanLines] at h
  | cons line rest ih =>
    by_cases hin : pyIn ip line = true
    · cases hfind : (pySplitWs line).find? _is_mac with
      | some tok =>
        simp only [scanLines, hin, if_true, hfind, Option.some.injEq] at h
        exact ⟨line, List.mem_cons_self line rest, hin, tok,
          List.mem_of_find?_eq_some hfind, List.find?_some hfind, h.symm⟩
      | none =>
        simp only [scanLines, hin, if_true, hfind] at h
        obtain ⟨l0, hmem, hrest⟩ := ih h
        exact ⟨l0, List.mem_cons_of_mem _ hmem, hrest⟩
    · simp only [scanLines, hin, if_false] at h
      obtain ⟨l0, hmem, hrest⟩ := ih h
      exact ⟨l0, List.mem_cons_of_mem _ hmem, hrest⟩

theorem scanLines_complete (ip : String) (lines : List String)
    (h : ∃ line, line ∈ lines ∧ pyIn ip line = true
        ∧ ∃ tok, tok ∈ pySplitWs line ∧ _is_mac tok = true) :
    ∃ m, scanLines ip lines = some m := by
  induction lines with
  | nil =>
    obtain ⟨line, hmem, _⟩ := h
    simp at hmem
  | cons line rest ih =>
    by_cases hin : pyIn ip line = true
    · cases hfind : (pySplitWs line).find? _is_mac with
      | some tok =>
        exact ⟨pyLower (dashToColon tok), by simp [scanLines, hin, hfind]⟩
      | none =>
        have hnone := List.find?_eq_none.mp hfind
        obtain ⟨l0, hmem, hin0, tok, htokmem, htok⟩ := h
        rcases List.mem_cons.mp hmem with rfl | hmem'
        · exact absurd htok (by simpa using hnone tok htokmem)
        · obtain ⟨m, hm⟩ := ih ⟨l0, hmem', hin0, tok, htokmem, htok⟩
          exact ⟨m, by simp [scanLines, hin, hfind, hm]⟩
    · obtain ⟨l0, hmem, hin0, hrest0⟩ := h
      rcases List.mem_cons.mp hmem with rfl | hmem'
      · exact absurd hin0 hin
      · obtain ⟨m, hm⟩ := ih ⟨l0, hmem', hin0, hrest0⟩
        exact ⟨m, by simp [scanLines, hin, hm]⟩

/-- C1: once a registry record holds a real mac (resp. hostname), an
`update_device` call passing `None` for that field keeps the prior value —
a known identity field is never overwritten with "unknown" — and for a
brand-new record an absent field defaults to "unknown". -/
theorem update_device_retains_identity (store : Store) (now : Nat) (ip : String)
    (mac hostname : Option String) (online : Bool) :
    (∀ r, store.lookup ip = some r →
        ((update_device store now ip none hostname online).lookup ip).map DeviceRecord.mac
            = some r.mac
        ∧ ((update_device store now ip mac none online).lookup ip).map DeviceRecord.hostname
            = some r.hostname
        ∧ (r.mac ≠ "unknown" →
            ((update_device store now ip none hostname online).lookup ip).map DeviceRecord.mac
              ≠ some "unknown")
        ∧ (r.hostname ≠ "unknown" →
            ((update_device store now ip mac none online).lookup ip).map DeviceRecord.hostname
              ≠ some "unknown"))
    ∧ (store.lookup ip = none →
        ((update_device store now ip none hostname online).lookup ip).map DeviceRecord.mac
            = some "unknown"
        ∧ ((update_device store now ip mac none online).lookup ip).map DeviceRecord.hostname
            = some "unknown") := by
  constructor
  · intro r hr
    refine ⟨?_, ?_, ?_, ?_⟩ <;>
      simp [lookup_update_device_self, hr, mergeRecord, pyOr]
  · intro hr
    constructor <;>
      simp [lookup_update_device_self, hr, mergeRecord, pyOr]

/-- C1 witness: concrete instantiation with an existing record holding a
real mac and hostname, and with a missing record. -/
theorem update_device_retains_identity_witness :
    ((update_device [("10.0.0.1", ⟨"10.0.0.1", "aa:bb:cc:dd:ee:ff", "box1", "online", 3⟩)]
        7 "10.0.0.1" none (some "other") true).lookup "10.0.0.1").map DeviceRecord.mac
      = some "aa:bb:cc:dd:ee:ff"
    ∧ ((update_device [] 7 "10.0.0.9" none none false).lookup "10.0.0.9").map DeviceRecord.mac
      = some "unknown" := by
  constructor
  · exact ((update_device_retains_identity
      [("10.0.0.1", ⟨"10.0.0.1", "aa:bb:cc:dd:ee:ff", "box1", "online", 3⟩)]
      7 "10.0.0.1" none (some "other") true).1
      ⟨"10.0.0.1", "aa:bb:cc:dd:ee:ff", "box1", "online", 3⟩ (by decide)).1
  · exact ((update_device_retains_identity [] 7 "10.0.0.9" none none false).2 (by decide)).1

/-- C2: `update_device` freezes `last_seen` while offline (falling back to
the current time only when no prior record exists), sets it to the current
time when online, is monotone under a non-decreasing clock, and an address
online at one cycle then offline at the next shows status "offline" with
`last_seen` unchanged. -/
theorem update_device_last_seen_spec (store : Store) (now : Nat) (ip : String)
    (mac hostname : Option String) :
    (∀ r, store.lookup ip = some r →
        ((update_device store now ip mac hostname false).lookup ip).map DeviceRecord.last_seen
            = some r.last_seen
        ∧ ((update_device store now ip mac hostname false).lookup ip).map DeviceRecord.status
            = some "offline"
        ∧ (r.last_seen ≤ now → ∀ online r',
            (update_device store now ip mac hostname online).lookup ip = some r' →
              r.last_seen ≤ r'.last_seen))
    ∧ (store.lookup ip = none →
        ((update_device store now ip mac hostname false).lookup ip).map DeviceRecord.last_seen
          = some now)
    ∧ ((update_device store now ip mac hostname true).lookup ip).map DeviceRecord.last_seen
        = some now
    ∧ (∀ now2 mac2 hostname2,
        ((update_device (update_device store now ip mac hostname true) now2 ip
              mac2 hostname2 false).lookup ip).map DeviceRecord.status = some "offline"
        ∧ ((update_device (update_device store now ip mac hostname true) now2 ip
              mac2 hostname2 false).lookup ip).map DeviceRecord.last_seen = some now) := by
  refine ⟨?_, ?_, ?_, ?_⟩
  · intro r hr
    refine ⟨by simp [lookup_update_device_self, hr, mergeRecord],
      by simp [lookup_update_device_self, hr, mergeRecord], ?_⟩
    intro hle online r' hr'
    rw [lookup_update_device_self, hr] at hr'
    cases hr'
    cases online <;> (simp [mergeRecord]; try omega)
  · intro hr
    simp [lookup_update_device_self, hr, mergeRecord]
  · simp [lookup_update_device_self, mergeRecord]
  · intro now2 mac2 hostname2
    constructor <;>
      simp [lookup_update_device_self, mergeRecord]

/-- C2 witness: concrete two-cycle run, online at time 5 then offline at
time 9: status flips to "offline" and `last_seen` stays 5; monotonicity at
a concrete prior record. -/
theorem update_device_last_seen_spec_witness :
    (((update_device (update_device [] 5 "10.0.0.3" none none true) 9 "10.0.0.3"
          none none false).lookup "10.0.0.3").map DeviceRecord.status = some "offline"
      ∧ ((update_device (update_device [] 5 "10.0.0.3" none none true) 9 "10.0.0.3"
          none none false).lookup "10.0.0.3").map DeviceRecord.last_seen = some 5)
    ∧ ((update_device [("10.0.0.3", ⟨"10.0.0.3", "unknown", "unknown", "online", 2⟩)]
          6 "10.0.0.3" none none false).lookup "10.0.0.3").map DeviceRecord.last_seen
        = some 2 := by
  constructor
  · exact (update_device_last_seen_spec [] 5 "10.0.0.3" none none).2.2.2 9 none none
  · exact ((update_device_last_seen_spec
      [("10.0.0.3", ⟨"10.0.0.3", "unknown", "unknown", "online", 2⟩)]
      6 "10.0.0.3" none none).1
      ⟨"10.0.0.3", "unknown", "unknown", "online", 2⟩ (by decide)).1

/-- C9: any serialisation of N `update_device` calls on N distinct
addresses (the per-call lock makes each call atomic, so every concurrent
schedule is one such serialisation) leaves every call's record in the
snapshot: no write to a distinct address is lost or corrupted. -/
theorem concurrent_updates_all_land (store : Store) (calls : List UpdateCall)
    (hnd : (calls.map UpdateCall.ip).Nodup) (c : UpdateCall) (hc : c ∈ calls) :
    (snapshot (applyCalls store calls)).lookup c.ip
      = some (mergeRecord (store.lookup c.ip) c.now c.ip c.mac c.hostname c.online) := by
  induction calls generalizing store with
  | nil => simp at hc
  | cons c0 rest ih =>
    simp only [snapshot] at ih ⊢
    simp only [List.map_cons, List.nodup_cons] at hnd
    have step : applyCalls store (c0 :: rest)
        = applyCalls (update_device store c0.now c0.ip c0.mac c0.hostname c0.online) rest := rfl
    rcases List.mem_cons.mp hc with rfl | hc'
    · rw [step, applyCalls_lookup_not_mem _ _ _ hnd.1, lookup_update_device_self]
    · have hne : c.ip ≠ c0.ip := by
        intro heq
        exact hnd.1 (heq ▸ List.mem_map_of_mem UpdateCall.ip hc')
      rw [step, ih _ hnd.2 hc', lookup_update_device_ne _ _ _ _ _ _ _ hne]

/-- C9 witness: two concurrent calls on distinct addresses both land. -/
theorem concurrent_updates_all_land_witness :
    (snapshot (applyCalls []
        [⟨1, "10.0.0.1", some "aa:bb:cc:dd:ee:ff", some "box1", true⟩,
         ⟨1, "10.0.0.2", none, none, false⟩])).lookup "10.0.0.2"
      = some (mergeRecord (List.lookup "10.0.0.2" ([] : Store)) 1 "10.0.0.2" none none false) :=
  concurrent_updates_all_land []
    [⟨1, "10.0.0.1", some "aa:bb:cc:dd:ee:ff", some "box1", true⟩,
     ⟨1, "10.0.0.2", none, none, false⟩]
    (by decide) ⟨1, "10.0.0.2", none, none, false⟩ (by decide)

/-- C5: one scan cycle issues, over the enumerated addresses, exactly one
`update_device` call per address in order; the call passes the ping
outcome as `online`, runs the link-layer and name lookups only when the
address was reachable (passing `None` otherwise), and every enumerated
address ends up with a registry entry. -/
theorem scan_cycle_probe_policy (env : NetEnv) (now : Nat) (ips : List String)
    (store : Store) :
    (scanCalls env ips).map ProbeCall.ip = ips
    ∧ (∀ c ∈ scanCalls env ips,
        c.online = env.ping c.ip
        ∧ c.mac = (if env.ping c.ip then get_mac_address c.ip (env.arpOut c.ip) else none)
        ∧ c.hostname = (if env.ping c.ip then env.dns c.ip else none)
        ∧ (env.ping c.ip = false → c.mac = none ∧ c.hostname = none))
    ∧ scanIps env now ips store
        = (scanCalls env ips).foldl
            (fun st c => update_device st now c.ip c.mac c.hostname c.online) store
    ∧ (∀ ip, ((scanCalls env ips).map ProbeCall.ip).count ip = ips.count ip)
    ∧ (∀ ip ∈ ips, ∃ r, (scanIps env now ips store).lookup ip = some r) := by
  have h1 : (scanCalls env ips).map ProbeCall.ip = ips := by
    simp only [scanCalls, List.map_map]
    exact List.map_id' ips
  refine ⟨h1, ?_, ?_, ?_, ?_⟩
  · intro c hc
    obtain ⟨ip, hip, rfl⟩ := List.mem_map.mp hc
    refine ⟨rfl, rfl, rfl, ?_⟩
    intro h0
    constructor <;> simp [h0]
  · simp only [scanCalls, List.foldl_map]
    rfl
  · intro ip
    rw [h1]
  · intro ip hip
    refine ⟨cycleRecord env now ip (store.lookup ip), ?_⟩
    rw [scanIps_lookup]
    simp [hip]

/-- C5 witness: a two-address subnet, one host reachable and one not. -/
theorem scan_cycle_probe_policy_witness :
    (scanCalls (⟨some "192.168.1.10", none, fun ip => ip = "192.168.1.1",
          fun _ => none, fun _ => none⟩ : NetEnv) ["192.168.1.1", "192.168.1.2"]).map
        ProbeCall.ip = ["192.168.1.1", "192.168.1.2"]
    ∧ (∃ r, (scanIps (⟨some "192.168.1.10", none, fun ip => ip = "192.168.1.1",
          fun _ => none, fun _ => none⟩ : NetEnv) 0 ["192.168.1.1", "192.168.1.2"]
          []).lookup "192.168.1.2" = some r) := by
  constructor
  · exact (scan_cycle_probe_policy
      (⟨some "192.168.1.10", none, fun ip => ip = "192.168.1.1",
        fun _ => none, fun _ => none⟩ : NetEnv) 0 ["192.168.1.1", "192.168.1.2"] []).1
  · exact (scan_cycle_probe_policy
      (⟨some "192.168.1.10", none, fun ip => ip = "192.168.1.1",
        fun _ => none, fun _ => none⟩ : NetEnv) 0 ["192.168.1.1", "192.168.1.2"] []).2.2.2.2
      "192.168.1.2" (by decide)

/-- C8: two scan cycles with identical probe results over a fully
reachable address list leave status/mac/hostname identical to the first
cycle for every enumerated address, with `last_seen` non-decreasing under
a non-decreasing clock. -/
theorem scan_cycle_idempotent (env : NetEnv) (ips : List String) (store : Store)
    (now1 now2 : Nat) (hall : ∀ ip ∈ ips, env.ping ip = true) (hmono : now1 ≤ now2)
    (ip : String) (hip : ip ∈ ips) :
    ∃ r1 r2,
      (scanIps env now1 ips store).lookup ip = some r1
      ∧ (scanIps env now2 ips (scanIps env now1 ips store)).lookup ip = some r2
      ∧ r2.status = r1.status ∧ r2.mac = r1.mac ∧ r2.hostname = r1.hostname
      ∧ r1.last_seen ≤ r2.last_seen := by
  have halive := hall ip hip
  refine ⟨cycleRecord env now1 ip (store.lookup ip),
    cycleRecord env now2 ip (some (cycleRecord env now1 ip (store.lookup ip))),
    ?_, ?_, ?_, ?_, ?_, ?_⟩
  · rw [scanIps_lookup]
    simp [hip]
  · rw [scanIps_lookup]
    simp only [hip, if_pos]
    rw [scanIps_lookup]
    simp [hip]
  · simp [cycleRecord, mergeRecord, halive]
  · simp [cycleRecord, mergeRecord, halive, pyOr_idem]
  · simp [cycleRecord, mergeRecord, halive, pyOr_idem]
  · simp [cycleRecord, mergeRecord, halive]
    exact hmono

/-- C8 witness: one reachable address scanned at times 2 and then 3. -/
theorem scan_cycle_idempotent_witness :
    ∃ r1 r2,
      (scanIps (⟨some "192.168.1.10", none, fun _ => true, fun _ => none,
          fun _ => none⟩ : NetEnv) 2 ["192.168.1.4"] []).lookup "192.168.1.4" = some r1
      ∧ (scanIps (⟨some "192.168.1.10", none, fun _ => true, fun _ => none,
          fun _ => none⟩ : NetEnv) 3 ["192.168.1.4"]
          (scanIps (⟨some "192.168.1.10", none, fun _ => true, fun _ => none,
            fun _ => none⟩ : NetEnv) 2 ["192.168.1.4"] [])).lookup "192.168.1.4" = some r2
      ∧ r2.status = r1.status ∧ r2.mac = r1.mac ∧ r2.hostname = r1.hostname
      ∧ r1.last_seen ≤ r2.last_seen :=
  scan_cycle_idempotent
    (⟨some "192.168.1.10", none, fun _ => true, fun _ => none, fun _ => none⟩ : NetEnv)
    ["192.168.1.4"] [] 2 3 (by intro ip _; rfl) (by decide) "192.168.1.4" (by decide)

/-- C7: the ARP parser returns the canonicalised 6-group token from a line
mentioning the queried address — on the spec's concrete example it yields
"aa:bb:cc:dd:ee:ff" — and returns `None` when the lookup command failed or
no line mentioning the address carries a token accepted by `_is_mac`. -/
theorem get_mac_address_spec :
    get_mac_address "192.168.1.5" (some "192.168.1.5 ether aa-bb-cc-dd-ee-ff")
        = some "aa:bb:cc:dd:ee:ff"
    ∧ (∀ ip, get_mac_address ip none = none)
    ∧ (∀ ip out m, get_mac_address ip (some out) = some m →
        ∃ line, line ∈ pySplitlines out ∧ pyIn ip line = true
          ∧ ∃ tok, tok ∈ pySplitWs line ∧ _is_mac tok = true
            ∧ m = pyLower (dashToColon tok))
    ∧ (∀ ip out, (∃ line, line ∈ pySplitlines out ∧ pyIn ip line = true
          ∧ ∃ tok, tok ∈ pySplitWs line ∧ _is_mac tok = true) →
        ∃ m, get_mac_address ip (some out) = some m) := by
  refine ⟨by decide, fun ip => rfl, ?_, ?_⟩
  · intro ip out m h
    exact scanLines_sound ip _ m h
  · intro ip out h
    exact scanLines_complete ip _ h

/-- C7 witness: a failed lookup yields `None`, and a matching line with a
valid hyphen-separated token yields a hit. -/
theorem get_mac_address_spec_witness :
    get_mac_address "10.0.0.7" none = none
    ∧ (∃ m, get_mac_address "10.0.0.7"
        (some "10.0.0.7 ether 01-02-03-04-05-06") = some m) := by
  refine ⟨get_mac_address_spec.2.1 "10.0.0.7",
    get_mac_address_spec.2.2.2 "10.0.0.7" "10.0.0.7 ether 01-02-03-04-05-06" ?_⟩
  exact ⟨"10.0.0.7 ether 01-02-03-04-05-06", by decide, by decide,
    "01-02-03-04-05-06", by decide, by decide⟩

/-- C10: line selection is substring containment, not exact address match:
an ARP output whose only line is for "192.168.1.50" still matches a query
for "192.168.1.5", whose answer becomes the other address's MAC. -/
theorem get_mac_address_substring_match :
    pyIn "192.168.1.5" "192.168.1.50 ether 11-22-33-44-55-66" = true
    ∧ ("192.168.1.5" : String) ≠ "192.168.1.50"
    ∧ get_mac_address "192.168.1.5" (some "192.168.1.50 ether 11-22-33-44-55-66")
        = some "11:22:33:44:55:66" :=
  ⟨by decide, by decide, by decide⟩

/-- C3 counterexample: when both the socket trick and host-name resolution
fail, `scan_network` raises (the `gethostbyname` exception propagates out
of `get_local_ip` and `build_subnet` uncaught) instead of producing an
empty result set, and the exception terminates `scan_loop` instead of
letting it retry on the next interval. -/
theorem scan_loop_discovery_failure_cex :
    scan_network (⟨none, none, fun _ => false, fun _ => none, fun _ => none⟩ : NetEnv) 0 []
        = Except.error "socket.gaierror"
    ∧ (Except.error "socket.gaierror" : Except String Store) ≠ Except.ok []
    ∧ scan_loop (⟨none, none, fun _ => false, fun _ => none, fun _ => none⟩ : NetEnv)
        (fun _ => 0) 0 1 [] = Except.error "socket.gaierror"
    ∧ scan_loop (⟨none, none, fun _ => false, fun _ => none, fun _ => none⟩ : NetEnv)
        (fun _ => 0) 0 2 [] = Except.error "socket.gaierror" :=
  ⟨rfl, fun h => Except.noConfusion h, rfl, rfl⟩

/-- C3 (amended): if the socket trick fails and host-name resolution also
fails, the exception propagates uncaught through `build_subnet` and
`scan_network` and terminates the scheduler loop; only a `ValueError` from
`ip_network` (malformed address/prefix) is caught, yielding an empty
address list with the loop running on. -/
theorem discovery_failure_propagates (env : NetEnv) (clock : Nat → Nat) :
    (env.sockIp = none → env.hostIp = none →
      get_local_ip env = Except.error "socket.gaierror"
      ∧ (∀ i fuel store, scan_loop env clock i (fuel + 1) store
            = Except.error "socket.gaierror"))
    ∧ (∀ ipStr, env.sockIp = some ipStr → parseIPv4 ipStr = none →
      build_subnet env DEFAULT_NETMASK = Except.ok []
      ∧ (∀ i fuel store, scan_loop env clock i fuel store = Except.ok store)) := by
  constructor
  · intro h1 h2
    have hloc : get_local_ip env = Except.error "socket.gaierror" := by
      simp [get_local_ip, h1, h2]
    refine ⟨hloc, ?_⟩
    intro i fuel store
    have hscan : scan_network env (clock i) store = Except.error "socket.gaierror" := by
      simp [scan_network, build_subnet, hloc]
    simp [scan_loop, hscan]
  · intro ipStr h1 h2
    have hloc : get_local_ip env = Except.ok ipStr := by
      simp [get_local_ip, h1]
    have hsub : build_subnet env DEFAULT_NETMASK = Except.ok [] := by
      simp [build_subnet, hloc, ipNetworkHosts, h2]
    refine ⟨hsub, ?_⟩
    intro i fuel
    revert i
    induction fuel with
    | zero => intro i store; rfl
    | succ n ih =>
      intro i store
      have hscan : scan_network env (clock i) store = Except.ok store := by
        simp [scan_network, hsub, scanIps]
      simp [scan_loop, hscan, ih]

/-- C3 witness: total discovery failure kills the loop; an unparsable
local address leaves the loop running with an empty scan. -/
theorem discovery_failure_propagates_witness :
    scan_loop (⟨none, none, fun _ => false, fun _ => none, fun _ => none⟩ : NetEnv)
        (fun _ => 0) 0 3 [] = Except.error "socket.gaierror"
    ∧ scan_loop (⟨some "bogus", none, fun _ => false, fun _ => none, fun _ => none⟩ : NetEnv)
        (fun _ => 0) 0 3 [] = Except.ok [] := by
  constructor
  · exact ((discovery_failure_propagates
      (⟨none, none, fun _ => false, fun _ => none, fun _ => none⟩ : NetEnv)
      (fun _ => 0)).1 rfl rfl).2 0 2 []
  · exact ((discovery_failure_propagates
      (⟨some "bogus", none, fun _ => false, fun _ => none, fun _ => none⟩ : NetEnv)
      (fun _ => 0)).2 "bogus" rfl (by decide)).2 0 3 []

/-- C4: a snapshot taken from any reachable store state is decoupled from
later mutation: reading any address through the snapshot's references
yields the same record before and after any further `update_device`
calls, because each call allocates a fresh record dict and never writes an
existing one in place. -/
theorem snapshot_decoupled_from_updates (calls0 calls1 : List UpdateCall) (ip : String) :
    memRead (memApply (memApply memInit calls0) calls1).heap
        (memSnapshot (memApply memInit calls0)) ip
      = memRead (memApply memInit calls0).heap
        (memSnapshot (memApply memInit calls0)) ip := by
  have hwf : memWF (memApply memInit calls0) := memWF_apply _ _ memWF_init
  obtain ⟨ext, hext⟩ := memApply_heap_extends (memApply memInit calls0) calls1
  unfold memRead memSnapshot
  cases hl : (memApply memInit calls0).tbl.lookup ip with
  | none => simp [hl]
  | some i =>
    have hi : i < (memApply memInit calls0).heap.length :=
      hwf (ip, i) (lookup_mem _ _ _ hl)
    rw [hext]
    simp only [hl, Option.some_bind]
    exact List.getElem?_append_left hi

set_option maxRecDepth 10000

set_option maxHeartbeats 1000000

/-- C6: host enumeration over local address "192.168.1.10" with prefix
length 24 yields exactly the 254 usable addresses "192.168.1.1" through
"192.168.1.254", excluding the network address "192.168.1.0" and the
broadcast address "192.168.1.255". -/
theorem build_subnet_slash24_hosts :
    build_subnet (⟨some "192.168.1.10", none, fun _ => false, fun _ => none,
        fun _ => none⟩ : NetEnv) 24
      = Except.ok ((List.range 254).map (fun i => "192.168.1." ++ toString (i + 1)))
    ∧ ((List.range 254).map (fun i => "192.168.1." ++ toString (i + 1))).length = 254
    ∧ "192.168.1.1" ∈ (List.range 254).map (fun i => "192.168.1." ++ toString (i + 1))
    ∧ "192.168.1.254" ∈ (List.range 254).map (fun i => "192.168.1." ++ toString (i + 1))
    ∧ "192.168.1.0" ∉ (List.range 254).map (fun i => "192.168.1." ++ toString (i + 1))
    ∧ "192.168.1.255" ∉ (List.range 254).map (fun i => "192.168.1." ++ toString (i + 1)) := by
  refine ⟨rfl, by simp, ?_, ?_, ?_, ?_⟩
  · exact List.mem_map.mpr ⟨0, by decide, by decide⟩
  · exact List.mem_map.mpr ⟨253, by decide, by decide⟩
  · decide
  · decide
